import Mathlib

namespace BoingBoing

/-! Shallow embedding of the dusk-boingboing game logic (src/src/logic.ts).
    All JavaScript numbers are modelled as exact rationals.  Math.random() is
    modelled as an explicit stream of rationals consumed one draw at a time in
    exactly the order the source consumes them, JavaScript short-circuit
    evaluation included.  A JavaScript crash (property access on undefined) is
    modelled by returning none. -/

def rowHeight : ℚ := 1/20
def platformWidth : ℚ := 1/6
def defaultJumpPower : ℚ := 3/100
def gravity : ℚ := -(3/2000)
def playerHalfWidth : ℚ := 3/100
def moveSpeed : ℚ := 1/50
def roundTime : ℚ := 1000 * 60 * 2

inductive GameEventType
  | die
  | win
  | bounce
  | spring
deriving DecidableEq

structure GameEvent where
  type : GameEventType
  playerId : Option String
deriving DecidableEq

structure Controls where
  left : Bool
  right : Bool
deriving DecidableEq

structure Jumper where
  id : String
  x : ℚ
  y : ℚ
  highest : ℚ
  type : ℤ
  vy : ℚ
  left : Bool
  right : Bool
  dead : Bool
deriving DecidableEq

inductive Dir
  | left
  | right
deriving DecidableEq

inductive EnemyType
  | bird
  | bat
deriving DecidableEq

structure Enemy where
  x : ℚ
  y : ℚ
  dir : Dir
  speed : ℚ
  type : EnemyType
deriving DecidableEq

structure Platform where
  x : ℚ
  y : ℚ
  width : ℚ
  spikes : Bool
  faller : Bool
  falling : Bool
  vy : ℚ
  spring : Bool
deriving DecidableEq

structure GameState where
  jumpers : List Jumper
  platforms : List (Option Platform)
  enemies : List Enemy
  startAt : ℚ
  jumping : Bool
  gameRestartTime : ℚ
  theme : ℤ
  events : List GameEvent
  scores : List (String × ℚ)
  best : List (String × ℚ)
deriving DecidableEq

/-- The Math.random() stream: an infinite sequence of draws plus a cursor. -/
structure Rand where
  stream : ℕ → ℚ
  idx : ℕ

def Rand.next (r : Rand) : ℚ × Rand := (r.stream r.idx, ⟨r.stream, r.idx + 1⟩)

/-- Association-list model of a JavaScript Record with string keys. -/
def alLookup (l : List (String × ℚ)) (k : String) : Option ℚ :=
  match l with
  | [] => none
  | (a, v) :: rest => if a = k then some v else alLookup rest k

def alSet (l : List (String × ℚ)) (k : String) (v : ℚ) : List (String × ℚ) :=
  match l with
  | [] => [(k, v)]
  | (a, w) :: rest => if a = k then (a, v) :: rest else (a, w) :: alSet rest k v

/-- Reading a sparse JavaScript array slot: undefined on a hole or out of range. -/
def platAt (l : List (Option Platform)) (i : ℕ) : Option Platform :=
  (l.get? i).bind id

/-- Sparse JavaScript assignment platforms i = p: pads with holes when needed. -/
def setAt (l : List (Option Platform)) (i : ℕ) (p : Platform) : List (Option Platform) :=
  if i < l.length then l.set i (some p)
  else l ++ List.replicate (i - l.length) none ++ [some p]

/-- Array lookup with a possibly negative JavaScript index. -/
def platLookup (l : List (Option Platform)) (i : ℤ) : Option Platform :=
  if 0 ≤ i then platAt l i.toNat else none

def markFalling (l : List (Option Platform)) (i : ℕ) : List (Option Platform) :=
  match platAt l i with
  | some p => l.set i (some { p with falling := true })
  | none => l

/-- generatePlatform from logic.ts, with the exact draw-consumption order of
    the JavaScript source (short-circuits skip draws). -/
def generatePlatform (r : Rand) (i : ℕ) (requiredPlatform : Bool) : Platform × Rand :=
  let rx := r.next.1
  let r1 := r.next.2
  let x : ℚ := if requiredPlatform = true then 1/2 + rx * platformWidth * 2 - platformWidth
               else rx * (1 - platformWidth)
  let sp : Bool × Rand :=
    if 30 < i ∧ requiredPlatform = false then
      (decide (r1.next.1 < 1/10 + (i : ℚ)/3000), r1.next.2)
    else (false, r1)
  let fa : Bool × Rand :=
    if 30 < i ∧ requiredPlatform = false ∧ sp.1 = false then
      (decide (sp.2.next.1 < 1/10 + (i : ℚ)/3000), sp.2.next.2)
    else (false, sp.2)
  let sg : Bool × Rand :=
    if fa.1 = false ∧ sp.1 = false then
      (decide (fa.2.next.1 < 2/25 + (i : ℚ)/5000), fa.2.next.2)
    else (false, fa.2)
  (⟨x, (i : ℚ) * rowHeight, platformWidth, sp.1, fa.1, false, 0, sg.1⟩, sg.2)

/-- Generation-loop state: the platforms built so far, the lastValidRow
    variable of the loop, and the random stream position. -/
structure GenState where
  platforms : List (Option Platform)
  lastValidRow : ℕ
  rnd : Rand

/-- One iteration of the level-generation loop of startGame for row i. -/
def genStep (gs : GenState) (i : ℕ) : GenState :=
  if gs.lastValidRow + 5 ≤ i then
    ⟨setAt gs.platforms i (generatePlatform gs.rnd i true).1, i,
     (generatePlatform gs.rnd i true).2⟩
  else
    let c := gs.rnd.next.1
    let r1 := gs.rnd.next.2
    if c < 1 - min (4/5) (((i : ℚ)/50) * (1/10)) then
      let p := (generatePlatform r1 i false).1
      ⟨setAt gs.platforms i p,
       if p.spikes = false ∧ p.faller = false then i else gs.lastValidRow,
       (generatePlatform r1 i false).2⟩
    else ⟨gs.platforms, gs.lastValidRow, r1⟩

/-- Runs the generation loop for a given number of rows starting at row i. -/
def genFrom (gs : GenState) (i : ℕ) : ℕ → GenState
  | 0 => gs
  | n + 1 => genFrom (genStep gs i) (i + 1) n

/-- The fixed wide row-0 start platform. -/
def startPlatform : Platform :=
  ⟨-platformWidth, rowHeight, 2, false, false, false, 0, false⟩

/-- The generation state just before row i of startGame's loop is processed
    (rows 5 .. i-1 already done), for initial random state r. -/
def genUpTo (r : Rand) (i : ℕ) : GenState :=
  genFrom ⟨[some startPlatform], 0, r⟩ 5 (i - 5)

def genEnemyLoop (r : Rand) (y : ℚ) : ℕ → List Enemy × Rand
  | 0 => ([], r)
  | n + 1 =>
    let rx := r.next.1
    let r1 := r.next.2
    let rs := r1.next.1
    let r2 := r1.next.2
    let rd := r2.next.1
    let r3 := r2.next.2
    let e : Enemy := ⟨rx * (1/2) + 1/4, y,
                      if rd > 1/2 then Dir.left else Dir.right,
                      1/500 + rs * (1/200), EnemyType.bird⟩
    let ry := r3.next.1
    let r4 := r3.next.2
    let rest := genEnemyLoop r4 (y + 1 + ry * 3) n
    (e :: rest.1, rest.2)

/-- startGame from logic.ts: resets jumpers, platforms, enemies, draws a theme,
    regenerates the level and enemies, resets the round flags.  It leaves the
    events, scores and best fields untouched. -/
def startGame (g : GameState) (r : Rand) : GameState × Rand :=
  let tr := r.next.1
  let r1 := r.next.2
  let gen := genUpTo r1 1000
  let ey := gen.rnd.next.1
  let r2 := gen.rnd.next.2
  let es := genEnemyLoop r2 (1 + ey * 2) 10
  ({ g with jumpers := [], platforms := gen.platforms, enemies := es.1,
            theme := ⌊tr * 5⌋, startAt := -1, jumping := false,
            gameRestartTime := -1 }, es.2)

/-- gameOver from logic.ts (on a defined state). -/
def gameOverL (now startAt : ℚ) (js : List Jumper) : Bool :=
  if startAt = -1 then false
  else (js.find? (fun j => !j.dead)).isNone || decide (now - startAt > roundTime)

def gameOver (now : ℚ) (g : GameState) : Bool :=
  gameOverL now g.startAt g.jumpers

/-- The head of the stable sort of the jumpers by descending highest, i.e. the
    earliest jumper holding the maximal highest value, or none on an empty
    list; models [...jumpers].sort((a, b) => b.highest - a.highest)[0]. -/
def winnerOf : List Jumper → Option Jumper
  | [] => none
  | j :: rest =>
    match winnerOf rest with
    | none => some j
    | some w => some (if w.highest > j.highest then w else j)

/-- Row index floor(y / rowHeight) used for the platform lookup. -/
def rowOf (y : ℚ) : ℤ := ⌊y / rowHeight⌋

/-- The 10-iteration sub-step loop of the physics update for one jumper.
    view is the jumpers array as the aliased gameOver call sees it, plats and
    evs are threaded through because a landing can set a platform falling and
    push events; a resolved landing breaks out of the loop (no recursion). -/
def substeps (now startAt : ℚ) (view : List Jumper) (plats : List (Option Platform))
    (evs : List GameEvent) (j : Jumper) : ℕ → Jumper × List (Option Platform) × List GameEvent
  | 0 => (j, plats, evs)
  | n + 1 =>
    let j1 : Jumper := { j with y := j.y + j.vy / 10 }
    if j1.dead = true then substeps now startAt view plats evs j1 n
    else if gameOverL now startAt view = true then substeps now startAt view plats evs j1 n
    else if j1.vy < 0 then
      match platLookup plats (rowOf j1.y) with
      | some p =>
        if p.falling = false ∧ p.x - playerHalfWidth < j1.x ∧
            j1.x < p.x + p.width + playerHalfWidth then
          let j2 : Jumper := if p.spikes = true then { j1 with dead := true } else j1
          let evs2 := if p.spikes = true then evs ++ [⟨GameEventType.die, some j1.id⟩] else evs
          let plats2 := if p.faller = true then markFalling plats (rowOf j1.y).toNat else plats
          let nvy : ℚ := if p.spring = true then defaultJumpPower * (3/2) else defaultJumpPower
          let j3 : Jumper := { j2 with y := p.y, vy := nvy }
          let evs3 := if p.spikes = false then
              evs2 ++ [⟨if p.spring = true then GameEventType.spring else GameEventType.bounce,
                        some j1.id⟩]
            else evs2
          (j3, plats2, evs3)
        else substeps now startAt view plats evs j1 n
      | none => substeps now startAt view plats evs j1 n
    else substeps now startAt view plats evs j1 n

/-- The held-control horizontal movement of one jumper: each direction applies
    only when the current x is strictly inside the corresponding threshold. -/
def applyMove (j : Jumper) : Jumper :=
  let j4 : Jumper := if j.right = true ∧ j.x < 1 - playerHalfWidth
                     then { j with x := j.x + moveSpeed } else j
  if j4.left = true ∧ j4.x > playerHalfWidth then { j4 with x := j4.x - moveSpeed } else j4

/-- The best-height record update: overwrite when the stored value is falsy
    (absent — read as 0 here — or zero) or strictly exceeded, mirroring the
    JavaScript if (!best[id] || highest > best[id]) check. -/
def bestUpdate (best : List (String × ℚ)) (k : String) (h : ℚ) : List (String × ℚ) :=
  let v := (alLookup best k).getD 0
  if v = 0 ∨ h > v then alSet best k h else best

/-- The post-sub-step part of the per-jumper update: enemy collision, held
    controls, highest and best bookkeeping, fall-off-screen check.  Skipped
    entirely when the jumper is dead after the sub-steps. -/
def postSub (enemies : List Enemy) (best : List (String × ℚ)) (j2 : Jumper)
    (evs : List GameEvent) : Jumper × List GameEvent × List (String × ℚ) :=
  if j2.dead = true then (j2, evs, best)
  else
    let hit := enemies.any fun e =>
      decide (|e.x - j2.x| < 1/20 ∧ |e.y - j2.y| < 1/20)
    let j3 : Jumper := if hit = true then { j2 with dead := true } else j2
    let evs3 := if hit = true then evs ++ [⟨GameEventType.die, some j2.id⟩] else evs
    let j5 := applyMove j3
    let j6 : Jumper := { j5 with highest := max j5.highest j5.y }
    let best6 := bestUpdate best j6.id j6.highest
    if j6.y < j6.highest - 1/2 ∧ j6.dead = false then
      ({ j6 with dead := true }, evs3 ++ [⟨GameEventType.die, some j6.id⟩], best6)
    else (j6, evs3, best6)

/-- The per-jumper tick body: apply gravity once, run the ten sub-steps (the
    gameOver call inside them sees the aliased jumpers array with this
    jumper's velocity already updated), then the post-sub-step block.  Returns
    the updated jumper, platforms, events and best map. -/
def stepCore (now : ℚ) (g : GameState) (k : ℕ) (j : Jumper) :
    Jumper × List (Option Platform) × List GameEvent × List (String × ℚ) :=
  let j1 : Jumper := { j with vy := j.vy + gravity }
  let res := substeps now g.startAt (g.jumpers.set k j1) g.platforms g.events j1 10
  let post := postSub g.enemies g.best res.1 res.2.2
  (post.1, res.2.1, post.2.1, post.2.2)

/-- Processing of the jumper at index k of the jumpers array for one tick. -/
def stepJumperAt (now : ℚ) (g : GameState) (k : ℕ) : GameState :=
  match g.jumpers.get? k with
  | none => g
  | some j =>
    { g with jumpers := g.jumpers.set k (stepCore now g k j).1,
             platforms := (stepCore now g k j).2.1,
             events := (stepCore now g k j).2.2.1,
             best := (stepCore now g k j).2.2.2 }

def stepJumpersFrom (now : ℚ) (g : GameState) (k : ℕ) : ℕ → GameState
  | 0 => g
  | n + 1 => stepJumpersFrom now (stepJumperAt now g k) (k + 1) n

/-- One step of a falling platform: accumulate gravity into vy then add vy. -/
def fallStep (plats : List (Option Platform)) : List (Option Platform) :=
  plats.map fun op =>
    match op with
    | none => none
    | some p => if p.falling = true then
        some { p with vy := p.vy + gravity, y := p.y + (p.vy + gravity) }
      else some p

def moveEnemy (e : Enemy) : Enemy :=
  match e.dir with
  | Dir.left =>
    let nx := e.x - e.speed
    if nx < 0 then { e with x := nx, dir := Dir.right } else { e with x := nx }
  | Dir.right =>
    let nx := e.x + e.speed
    if nx > 1 then { e with x := nx, dir := Dir.left } else { e with x := nx }

/-- The active-round physics branch of update: falling platforms, enemy
    patrol, then each jumper in list order. -/
def physicsStep (now : ℚ) (g : GameState) : GameState :=
  let g1 := { g with platforms := fallStep g.platforms, enemies := g.enemies.map moveEnemy }
  stepJumpersFrom now g1 0 g1.jumpers.length

/-- The lobby branch of update: arm the countdown once everyone joined, then
    start the round once the countdown elapsed. -/
def lobbyStep (now : ℚ) (ids : List String) (g : GameState) : GameState :=
  let g1 := if g.jumpers.length = ids.length ∧ g.startAt = -1
            then { g with startAt := now + 3000 } else g
  if g1.startAt > 0 ∧ now > g1.startAt then
    { g1 with jumping := true,
              events := g1.events ++ ids.map (fun pid => ⟨GameEventType.bounce, some pid⟩) }
  else g1

def bumpScore (scores : List (String × ℚ)) (k : String) : List (String × ℚ) :=
  alSet scores k ((alLookup scores k).getD 0 + 1)

/-- The round-over check at the top of update.  Returns none exactly when the
    JavaScript source would crash reading winner.id of undefined (the sorted
    jumpers array is empty). -/
def winCheck (now : ℚ) (g : GameState) : Option GameState :=
  if g.jumping = true ∧ g.gameRestartTime = -1 ∧ gameOver now g = true then
    match winnerOf g.jumpers with
    | none => none
    | some w => some { g with gameRestartTime := now + 3000,
                              events := g.events ++ [⟨GameEventType.win, none⟩],
                              scores := bumpScore g.scores w.id }
  else some g

/-- The per-tick update function of logic.ts.  now is Rune.gameTime(), ids is
    context.allPlayerIds, r feeds the Math.random() calls of a restart. -/
def update (now : ℚ) (ids : List String) (r : Rand) (g : GameState) : Option GameState :=
  let g0 := { g with events := [] }
  match winCheck now g0 with
  | none => none
  | some g1 =>
    if g1.gameRestartTime ≠ -1 ∧ now > g1.gameRestartTime then
      some (startGame g1 r).1
    else if g1.jumping = false then
      some (lobbyStep now ids g1)
    else
      some (physicsStep now g1)

/-- The join action: unconditionally appends a fresh jumper for the calling
    player; indexOf yields -1 when the player id is absent from ids. -/
def join (g : GameState) (ids : List String) (pid : String) (ty : ℤ) : GameState :=
  let baseX : ℚ := 1/2 - ((ids.length : ℚ) - 1) * (1/10)
  let pos : ℤ := match ids.indexOf? pid with
    | some n => (n : ℤ)
    | none => -1
  let x : ℚ := (pos : ℚ) * (1/5) + baseX
  { g with jumpers := g.jumpers ++
      [⟨pid, x, rowHeight, rowHeight, ty, defaultJumpPower, false, false, false⟩] }

/-- The controls action: overwrite the flags of the first jumper whose id
    matches the calling player, when there is one. -/
def setControls : List Jumper → String → Controls → List Jumper
  | [], _, _ => []
  | j :: rest, pid, c =>
    if j.id = pid then { j with right := c.right, left := c.left } :: rest
    else j :: setControls rest pid c

def controls (g : GameState) (pid : String) (c : Controls) : GameState :=
  { g with jumpers := setControls g.jumpers pid c }

/-- The playerLeft event handler: drop that player's jumpers. -/
def playerLeft (g : GameState) (pid : String) : GameState :=
  { g with jumpers := g.jumpers.filter (fun j => j.id ≠ pid) }

/-! Helper lemmas -/

set_option maxRecDepth 8000

/-- The all-zeroes random stream, used for concrete runs. -/
def rand0 : Rand := ⟨fun _ => 0, 0⟩

theorem alLookup_alSet_self (l : List (String × ℚ)) (k : String) (v : ℚ) :
    alLookup (alSet l k v) k = some v := by
  induction l with
  | nil => simp [alSet, alLookup]
  | cons a t ih =>
    obtain ⟨a1, a2⟩ := a
    by_cases h : a1 = k
    · simp [alSet, alLookup, h]
    · simp [alSet, alLookup, h, ih]

theorem alLookup_alSet_other (l : List (String × ℚ)) (k k' : String) (v : ℚ)
    (h : k' ≠ k) : alLookup (alSet l k v) k' = alLookup l k' := by
  induction l with
  | nil => simp [alSet, alLookup, Ne.symm h]
  | cons a t ih =>
    obtain ⟨a1, a2⟩ := a
    by_cases hk : a1 = k
    · subst hk
      simp [alSet, alLookup, Ne.symm h]
    · simp [alSet, alLookup, hk, ih]

theorem get_set_self {α : Type} (l : List α) (k : ℕ) (a : α) (h : k < l.length) :
    (l.set k a).get? k = some a := by
  induction l generalizing k with
  | nil => simp at h
  | cons b t ih =>
    cases k with
    | zero => rfl
    | succ m => simpa using ih m (by simpa using h)

theorem get_set_other {α : Type} (l : List α) (k m : ℕ) (a : α) (h : k ≠ m) :
    (l.set k a).get? m = l.get? m := by
  induction l generalizing k m with
  | nil => simp
  | cons b t ih =>
    cases k with
    | zero =>
      cases m with
      | zero => exact absurd rfl h
      | succ mm => simp
    | succ kk =>
      cases m with
      | zero => simp
      | succ mm => simpa using ih kk mm (by omega)

theorem mem_of_mem_set {α : Type} (l : List α) (k : ℕ) (b : α) :
    ∀ a ∈ l.set k b, a = b ∨ a ∈ l := by
  induction l generalizing k with
  | nil => simp
  | cons c t ih =>
    cases k with
    | zero =>
      intro a ha
      rcases List.mem_cons.mp ha with h | h
      · exact Or.inl h
      · exact Or.inr (List.mem_cons_of_mem _ h)
    | succ m =>
      intro a ha
      rcases List.mem_cons.mp ha with h | h
      · exact Or.inr (h ▸ List.mem_cons_self _ _)
      · rcases ih m a h with h' | h'
        · exact Or.inl h'
        · exact Or.inr (List.mem_cons_of_mem _ h')

theorem platAt_setAt (l : List (Option Platform)) (i : ℕ) (p : Platform) :
    platAt (setAt l i p) i = some p := by
  unfold setAt platAt
  split
  · rw [get_set_self _ _ _ (by assumption)]
    rfl
  · rename_i h
    have hlen : (l ++ List.replicate (i - l.length) none).length = i := by
      simp
      omega
    rw [List.get?_append_right (by rw [hlen]), hlen]
    simp

/-! Generation lemmas -/

theorem generatePlatform_stream (r : Rand) (i : ℕ) (b : Bool) :
    (generatePlatform r i b).2.stream = r.stream := by
  unfold generatePlatform Rand.next
  dsimp only
  split <;> split <;> split <;> rfl

theorem genStep_stream (gs : GenState) (i : ℕ) :
    (genStep gs i).rnd.stream = gs.rnd.stream := by
  unfold genStep Rand.next
  dsimp only
  split
  · exact generatePlatform_stream _ _ _
  · split
    · exact generatePlatform_stream _ _ _
    · rfl

theorem genFrom_stream (n : ℕ) : ∀ (gs : GenState) (i : ℕ),
    (genFrom gs i n).rnd.stream = gs.rnd.stream := by
  induction n with
  | zero => intro gs i; rfl
  | succ m ih =>
    intro gs i
    show (genFrom (genStep gs i) (i + 1) m).rnd.stream = _
    rw [ih, genStep_stream]

theorem genUpTo_stream (r : Rand) (i : ℕ) : (genUpTo r i).rnd.stream = r.stream := by
  unfold genUpTo
  rw [genFrom_stream]

theorem genFrom_succ (n : ℕ) : ∀ (gs : GenState) (i : ℕ),
    genFrom gs i (n + 1) = genStep (genFrom gs i n) (i + n) := by
  induction n with
  | zero => intro gs i; rfl
  | succ m ih =>
    intro gs i
    show genFrom (genStep gs i) (i + 1) (m + 1) = _
    rw [ih]
    show genStep (genFrom (genStep gs i) (i + 1) m) (i + 1 + m) = _
    congr 1
    omega

theorem genUpTo_succ (r : Rand) (i : ℕ) (h : 5 ≤ i) :
    genUpTo r (i + 1) = genStep (genUpTo r i) i := by
  unfold genUpTo
  have h1 : i + 1 - 5 = (i - 5) + 1 := by omega
  rw [h1, genFrom_succ]
  congr 1
  omega

theorem genStep_lastValidRow_req (gs : GenState) (i : ℕ) (h : gs.lastValidRow + 5 ≤ i) :
    (genStep gs i).lastValidRow = i := by
  unfold genStep
  rw [if_pos h]

theorem genStep_lastValidRow (gs : GenState) (i : ℕ) :
    (genStep gs i).lastValidRow = i ∨ (genStep gs i).lastValidRow = gs.lastValidRow := by
  unfold genStep
  dsimp only
  split
  · left
    rfl
  · split
    · split
      · left
        rfl
      · right
        rfl
    · right
      rfl

theorem genStep_lvr (gs : GenState) (i : ℕ) (h1 : gs.lastValidRow ≤ i)
    (h2 : i - gs.lastValidRow ≤ 5) :
    (genStep gs i).lastValidRow ≤ i + 1 ∧ (i + 1) - (genStep gs i).lastValidRow ≤ 5 := by
  by_cases h : gs.lastValidRow + 5 ≤ i
  · rw [genStep_lastValidRow_req gs i h]
    omega
  · rcases genStep_lastValidRow gs i with he | he <;> rw [he] <;> omega

theorem c1_aux (r : Rand) (n : ℕ) :
    (genUpTo r (5 + n)).lastValidRow ≤ 5 + n ∧
      (5 + n) - (genUpTo r (5 + n)).lastValidRow ≤ 5 := by
  induction n with
  | zero => constructor <;> simp [genUpTo, genFrom]
  | succ m ih =>
    have h5m : 5 + (m + 1) = (5 + m) + 1 := by omega
    rw [h5m, genUpTo_succ r (5 + m) (by omega)]
    exact genStep_lvr _ _ ih.1 ih.2

/-- Claim C1: during startGame's generation loop, at the time each row i in
    5..999 is processed, the gap i - lastValidRow is at most 5 (so a required
    platform is force-placed whenever the gap reaches 5 and no span of five or
    more walkable-platform-free rows exists below row 1000). -/
theorem c1_reachability (r : Rand) (i : ℕ) (h5 : 5 ≤ i) (h9 : i ≤ 999) :
    (genUpTo r i).lastValidRow ≤ i ∧ i - (genUpTo r i).lastValidRow ≤ 5 := by
  have h := c1_aux r (i - 5)
  have he : 5 + (i - 5) = i := by omega
  rwa [he] at h

theorem c1_reachability_witness :
    (genUpTo rand0 7).lastValidRow ≤ 7 ∧ 7 - (genUpTo rand0 7).lastValidRow ≤ 5 :=
  c1_reachability rand0 7 (by norm_num) (by norm_num)

theorem generatePlatform_required (r : Rand) (i : ℕ) :
    (generatePlatform r i true).1.spikes = false ∧
    (generatePlatform r i true).1.faller = false ∧
    (generatePlatform r i true).1.x =
      1/2 + r.stream r.idx * platformWidth * 2 - platformWidth := by
  unfold generatePlatform Rand.next
  simp only [Bool.true_eq_false, and_false, false_and, if_false, ite_false,
    eq_self_iff_true, if_true, ite_true]
  exact ⟨trivial, trivial, trivial⟩

/-- Claim C4 (amended): a required platform force-placed at row i has
    spikes = false and faller = false and its x lies within one platform-width
    of 0.5; the spring flag however is drawn randomly and may be true. -/
theorem c4_required_platform (r : Rand) (hr : ∀ n, 0 ≤ r.stream n ∧ r.stream n < 1)
    (i : ℕ) (h5 : 5 ≤ i) (h9 : i ≤ 999)
    (hreq : (genUpTo r i).lastValidRow + 5 ≤ i) :
    ∃ p, platAt (genUpTo r (i + 1)).platforms i = some p ∧
      p.spikes = false ∧ p.faller = false ∧
      1/2 - platformWidth ≤ p.x ∧ p.x ≤ 1/2 + platformWidth := by
  rw [genUpTo_succ r i h5]
  unfold genStep
  rw [if_pos hreq]
  refine ⟨(generatePlatform (genUpTo r i).rnd i true).1, platAt_setAt _ _ _,
    (generatePlatform_required _ _).1, (generatePlatform_required _ _).2.1, ?_, ?_⟩ <;>
  · rw [(generatePlatform_required _ _).2.2]
    have hb := hr ((genUpTo r i).rnd.idx)
    rw [genUpTo_stream] at *
    unfold platformWidth
    nlinarith [hb.1, hb.2]

/-- Claim C4 counterexample: with the all-zero random stream, row 5 is a
    required placement (lastValidRow = 0 when it is processed) and the
    generated required platform has spring = true, contradicting the claim
    that required platforms never carry a spring. -/
theorem c4_counterexample :
    (genUpTo rand0 5).lastValidRow + 5 ≤ 5 ∧
    (platAt (genUpTo rand0 6).platforms 5).map Platform.spring = some true := by
  constructor
  · norm_num [genUpTo, genFrom]
  · norm_num [genUpTo, genFrom, genStep, generatePlatform, Rand.next, setAt, platAt,
      startPlatform, platformWidth, rowHeight, min_def, rand0]

theorem c4_required_platform_witness :
    ∃ p, platAt (genUpTo rand0 6).platforms 5 = some p ∧
      p.spikes = false ∧ p.faller = false ∧
      1/2 - platformWidth ≤ p.x ∧ p.x ≤ 1/2 + platformWidth :=
  c4_required_platform rand0 (fun n => by norm_num [rand0]) 5 (by norm_num)
    (by norm_num) (by norm_num [genUpTo, genFrom])

/-- Claim C5 (amended): for a random (non-required) platform generated at row
    i, spikes is true exactly when i > 30 and the spike roll (the second draw,
    after the x draw) is below 0.1 + i/3000.  There is no lastSpike state in
    the code, so nothing prevents spike platforms on adjacent rows. -/
theorem c5_spikes_rule (r : Rand) (i : ℕ) :
    (generatePlatform r i false).1.spikes = true ↔
      (30 < i ∧ r.stream (r.idx + 1) < 1/10 + (i : ℚ)/3000) := by
  unfold generatePlatform Rand.next
  by_cases h : 30 < i
  · simp [h]
  · simp [h]

/-- A random stream that fails the placement roll on filler rows (draw 1) and
    returns 0 on every other draw, giving a sparse level whose rows 31 and 32
    both come out spiked. -/
def c5rand : Rand :=
  ⟨fun n => if n ∈ [2, 3, 4, 5, 8, 9, 10, 11, 14, 15, 16, 17,
                    20, 21, 22, 23, 26, 27, 28, 29] then 1 else 0, 0⟩

/-- The platform layout the c5rand stream generates for rows below 33: a
    required spring platform every five rows and spike platforms on the
    adjacent rows 31 and 32. -/
def L33 : List (Option Platform) :=
  [some startPlatform, none, none, none, none,
   some ⟨1/3, 1/4, 1/6, false, false, false, 0, true⟩, none, none, none, none,
   some ⟨1/3, 1/2, 1/6, false, false, false, 0, true⟩, none, none, none, none,
   some ⟨1/3, 3/4, 1/6, false, false, false, 0, true⟩, none, none, none, none,
   some ⟨1/3, 1, 1/6, false, false, false, 0, true⟩, none, none, none, none,
   some ⟨1/3, 5/4, 1/6, false, false, false, 0, true⟩, none, none, none, none,
   some ⟨1/3, 3/2, 1/6, false, false, false, 0, true⟩,
   some ⟨0, 31/20, 1/6, true, false, false, 0, false⟩,
   some ⟨0, 8/5, 1/6, true, false, false, 0, false⟩]

set_option maxHeartbeats 4000000 in
theorem c5_platforms : (genUpTo c5rand 33).platforms = L33 := by
  norm_num [genUpTo, genFrom, genStep, generatePlatform, Rand.next, setAt,
    startPlatform, platformWidth, rowHeight, min_def, c5rand, L33, List.replicate]

set_option maxHeartbeats 4000000 in
theorem c5_lvr31 : (genUpTo c5rand 31).lastValidRow = 30 := by
  norm_num [genUpTo, genFrom, genStep, generatePlatform, Rand.next, setAt,
    startPlatform, platformWidth, rowHeight, min_def, c5rand, List.replicate]

set_option maxHeartbeats 4000000 in
theorem c5_lvr32 : (genUpTo c5rand 32).lastValidRow = 30 := by
  norm_num [genUpTo, genFrom, genStep, generatePlatform, Rand.next, setAt,
    startPlatform, platformWidth, rowHeight, min_def, c5rand, List.replicate]

/-- Claim C5 counterexample: under the c5rand stream, rows 31 and 32 are both
    generated as random platforms (lastValidRow stays 30, so neither is
    required) and both carry spikes, i.e. two spike platforms lie only one row
    apart — fewer than 5. -/
theorem c5_counterexample :
    (genUpTo c5rand 31).lastValidRow = 30 ∧
    (genUpTo c5rand 32).lastValidRow = 30 ∧
    (platAt (genUpTo c5rand 33).platforms 31).map Platform.spikes = some true ∧
    (platAt (genUpTo c5rand 33).platforms 32).map Platform.spikes = some true := by
  refine ⟨c5_lvr31, c5_lvr32, ?_, ?_⟩ <;> (rw [c5_platforms]; rfl)

/-! Physics-step lemmas -/

def noWin (t : List GameEvent) : Prop := ∀ e ∈ t, e.type ≠ GameEventType.win

def winCount (evs : List GameEvent) : ℕ :=
  (evs.filter (fun e => decide (e.type = GameEventType.win))).length

theorem noWin_append (t1 t2 : List GameEvent) (h1 : noWin t1) (h2 : noWin t2) :
    noWin (t1 ++ t2) := by
  intro e he
  rcases List.mem_append.mp he with h | h
  · exact h1 e h
  · exact h2 e h

theorem winCount_append_noWin (evs t : List GameEvent) (h : noWin t) :
    winCount (evs ++ t) = winCount evs := by
  unfold winCount
  rw [List.filter_append]
  have he : t.filter (fun e => decide (e.type = GameEventType.win)) = [] := by
    rw [List.filter_eq_nil]
    intro e hme
    simpa using h e hme
  rw [he, List.append_nil]

theorem substeps_highest (now st : ℚ) (view : List Jumper) : ∀ (n : ℕ)
    (plats : List (Option Platform)) (evs : List GameEvent) (j : Jumper),
    (substeps now st view plats evs j n).1.highest = j.highest := by
  intro n
  induction n with
  | zero => intro plats evs j; rfl
  | succ m ih =>
    intro plats evs j
    simp only [substeps]
    split
    · exact ih plats evs _
    · split
      · exact ih plats evs _
      · split
        · split
          · split
            · split <;> rfl
            · exact ih plats evs _
          · exact ih plats evs _
        · exact ih plats evs _

theorem substeps_dead (now st : ℚ) (view : List Jumper) : ∀ (n : ℕ)
    (plats : List (Option Platform)) (evs : List GameEvent) (j : Jumper),
    j.dead = true → (substeps now st view plats evs j n).1.dead = true := by
  intro n
  induction n with
  | zero => intro plats evs j h; exact h
  | succ m ih =>
    intro plats evs j h
    simp only [substeps]
    split
    · exact ih plats evs _ h
    · rename_i hnd
      exact absurd h hnd

theorem substeps_events (now st : ℚ) (view : List Jumper) : ∀ (n : ℕ)
    (plats : List (Option Platform)) (evs : List GameEvent) (j : Jumper),
    ∃ t, (substeps now st view plats evs j n).2.2 = evs ++ t ∧ noWin t := by
  intro n
  induction n with
  | zero => intro plats evs j; exact ⟨[], by simp [substeps], by intro e he; simp at he⟩
  | succ m ih =>
    intro plats evs j
    simp only [substeps]
    split
    · exact ih plats evs _
    · split
      · exact ih plats evs _
      · split
        · split
          · rename_i op p heq
            split
            · split
              · rename_i hsp
                refine ⟨[⟨GameEventType.die, some j.id⟩], by simp [hsp], ?_⟩
                intro e he
                simp at he
                subst he
                simp
              · rename_i hsp
                have hs : p.spikes = false := by simp_all
                refine ⟨[⟨if p.spring = true then GameEventType.spring
                  else GameEventType.bounce, some j.id⟩], by simp [hs], ?_⟩
                intro e he
                simp at he
                subst he
                split <;> simp
            · exact ih plats evs _
          · exact ih plats evs _
        · exact ih plats evs _

theorem applyMove_highest (j : Jumper) : (applyMove j).highest = j.highest := by
  unfold applyMove
  dsimp only
  split <;> split <;> rfl

theorem applyMove_dead (j : Jumper) : (applyMove j).dead = j.dead := by
  unfold applyMove
  dsimp only
  split <;> split <;> rfl

theorem postSub_of_dead (es : List Enemy) (best : List (String × ℚ)) (j2 : Jumper)
    (evs : List GameEvent) (h : j2.dead = true) :
    postSub es best j2 evs = (j2, evs, best) := by
  unfold postSub
  rw [if_pos h]

theorem postSub_highest (es : List Enemy) (best : List (String × ℚ)) (j2 : Jumper)
    (evs : List GameEvent) : j2.highest ≤ (postSub es best j2 evs).1.highest := by
  unfold postSub
  split
  · exact le_refl _
  · dsimp only
    set hit := es.any fun e => decide (|e.x - j2.x| < 1/20 ∧ |e.y - j2.y| < 1/20) with hhit
    set j3 : Jumper := if hit = true then { j2 with dead := true } else j2 with hj3
    have h3 : j3.highest = j2.highest := by
      rw [hj3]
      split <;> rfl
    split
    · show j2.highest ≤ max (applyMove j3).highest (applyMove j3).y
      rw [applyMove_highest, h3]
      exact le_max_left _ _
    · show j2.highest ≤ max (applyMove j3).highest (applyMove j3).y
      rw [applyMove_highest, h3]
      exact le_max_left _ _

theorem postSub_events (es : List Enemy) (best : List (String × ℚ)) (j2 : Jumper)
    (evs : List GameEvent) :
    ∃ t, (postSub es best j2 evs).2.1 = evs ++ t ∧ noWin t := by
  unfold postSub
  split
  · exact ⟨[], by simp, by intro e he; simp at he⟩
  · dsimp only
    set hit := es.any fun e => decide (|e.x - j2.x| < 1/20 ∧ |e.y - j2.y| < 1/20) with hhit
    set j3 : Jumper := if hit = true then { j2 with dead := true } else j2 with hj3
    set evs3 := if hit = true then evs ++ [⟨GameEventType.die, some j2.id⟩] else evs with hevs3
    have hbase : ∃ t, evs3 = evs ++ t ∧ noWin t := by
      rw [hevs3]
      split
      · exact ⟨[⟨GameEventType.die, some j2.id⟩], rfl, by
          intro e he
          simp at he
          simp [he]⟩
      · exact ⟨[], by simp, by intro e he; simp at he⟩
    obtain ⟨t, ht, hnw⟩ := hbase
    split
    · refine ⟨t ++ [⟨GameEventType.die, some (applyMove j3).id⟩], ?_, ?_⟩
      · show evs3 ++ [⟨GameEventType.die, some (applyMove j3).id⟩] = _
        rw [ht, List.append_assoc]
      · refine noWin_append _ _ hnw ?_
        intro e he
        simp at he
        simp [he]
    · exact ⟨t, ht, hnw⟩

theorem bestUpdate_other (best : List (String × ℚ)) (k : String) (h : ℚ) (k' : String)
    (hk : k' ≠ k) : alLookup (bestUpdate best k h) k' = alLookup best k' := by
  unfold bestUpdate
  dsimp only
  split
  · exact alLookup_alSet_other _ _ _ _ hk
  · rfl

theorem bestUpdate_mono (best : List (String × ℚ)) (k : String) (h : ℚ) (hh : 0 ≤ h)
    (k' : String) (v : ℚ) (hv : alLookup best k' = some v) :
    ∃ v', alLookup (bestUpdate best k h) k' = some v' ∧ v ≤ v' := by
  by_cases hk : k' = k
  · subst hk
    unfold bestUpdate
    dsimp only
    rw [hv, Option.getD_some]
    by_cases hc : v = 0 ∨ h > v
    · rw [if_pos hc]
      refine ⟨h, alLookup_alSet_self _ _ _, ?_⟩
      rcases hc with h0 | hlt
      · rw [h0]
        exact hh
      · exact le_of_lt hlt
    · rw [if_neg hc]
      exact ⟨v, hv, le_refl v⟩
  · rw [bestUpdate_other _ _ _ _ hk]
    exact ⟨v, hv, le_refl v⟩

theorem postSub_best_mono (es : List Enemy) (best : List (String × ℚ)) (j2 : Jumper)
    (evs : List GameEvent) (h0 : 0 ≤ j2.highest) (k' : String) (v : ℚ)
    (hv : alLookup best k' = some v) :
    ∃ v', alLookup (postSub es best j2 evs).2.2 k' = some v' ∧ v ≤ v' := by
  unfold postSub
  split
  · exact ⟨v, hv, le_refl v⟩
  · dsimp only
    set hit := es.any fun e => decide (|e.x - j2.x| < 1/20 ∧ |e.y - j2.y| < 1/20) with hhit
    set j3 : Jumper := if hit = true then { j2 with dead := true } else j2 with hj3
    have h3 : j3.highest = j2.highest := by
      rw [hj3]
      split <;> rfl
    have hnn : (0:ℚ) ≤ max (applyMove j3).highest (applyMove j3).y := by
      rw [applyMove_highest, h3]
      exact le_trans h0 (le_max_left _ _)
    split
    · exact bestUpdate_mono _ _ _ hnn k' v hv
    · exact bestUpdate_mono _ _ _ hnn k' v hv

theorem stepCore_highest (now : ℚ) (g : GameState) (k : ℕ) (j : Jumper) :
    j.highest ≤ (stepCore now g k j).1.highest := by
  unfold stepCore
  dsimp only
  refine le_trans (le_of_eq ?_) (postSub_highest _ _ _ _)
  rw [substeps_highest]

theorem stepCore_dead (now : ℚ) (g : GameState) (k : ℕ) (j : Jumper)
    (h : j.dead = true) : (stepCore now g k j).1.dead = true := by
  unfold stepCore
  dsimp only
  have hd : (substeps now g.startAt (g.jumpers.set k { j with vy := j.vy + gravity })
      g.platforms g.events { j with vy := j.vy + gravity } 10).1.dead = true :=
    substeps_dead now g.startAt _ 10 g.platforms g.events _ h
  rw [postSub_of_dead _ _ _ _ hd]
  exact hd

theorem stepCore_events (now : ℚ) (g : GameState) (k : ℕ) (j : Jumper) :
    ∃ t, (stepCore now g k j).2.2.1 = g.events ++ t ∧ noWin t := by
  unfold stepCore
  dsimp only
  obtain ⟨t1, h1, hn1⟩ := substeps_events now g.startAt
    (g.jumpers.set k { j with vy := j.vy + gravity }) 10 g.platforms g.events
    { j with vy := j.vy + gravity }
  obtain ⟨t2, h2, hn2⟩ := postSub_events g.enemies g.best
    (substeps now g.startAt (g.jumpers.set k { j with vy := j.vy + gravity })
      g.platforms g.events { j with vy := j.vy + gravity } 10).1
    (substeps now g.startAt (g.jumpers.set k { j with vy := j.vy + gravity })
      g.platforms g.events { j with vy := j.vy + gravity } 10).2.2
  refine ⟨t1 ++ t2, ?_, noWin_append _ _ hn1 hn2⟩
  rw [h2, h1, List.append_assoc]

theorem stepCore_best (now : ℚ) (g : GameState) (k : ℕ) (j : Jumper)
    (h0 : 0 ≤ j.highest) (k' : String) (v : ℚ) (hv : alLookup g.best k' = some v) :
    ∃ v', alLookup (stepCore now g k j).2.2.2 k' = some v' ∧ v ≤ v' := by
  unfold stepCore
  dsimp only
  apply postSub_best_mono
  · rw [substeps_highest]
    exact h0
  · exact hv

theorem stepJumperAt_frame (now : ℚ) (g : GameState) (k : ℕ) :
    (stepJumperAt now g k).startAt = g.startAt ∧
    (stepJumperAt now g k).jumping = g.jumping ∧
    (stepJumperAt now g k).gameRestartTime = g.gameRestartTime ∧
    (stepJumperAt now g k).scores = g.scores := by
  unfold stepJumperAt
  split
  · exact ⟨rfl, rfl, rfl, rfl⟩
  · exact ⟨rfl, rfl, rfl, rfl⟩

theorem stepJumperAt_events (now : ℚ) (g : GameState) (k : ℕ) :
    ∃ t, (stepJumperAt now g k).events = g.events ++ t ∧ noWin t := by
  unfold stepJumperAt
  split
  · exact ⟨[], by simp, by intro e he; simp at he⟩
  · rename_i j hk
    exact stepCore_events now g k j

theorem get_some_lt {α : Type} (l : List α) (k : ℕ) (a : α) (h : l.get? k = some a) :
    k < l.length := by
  by_contra hc
  push_neg at hc
  rw [List.get?_eq_none.mpr hc] at h
  exact absurd h (by simp)

theorem stepJumperAt_get (now : ℚ) (g : GameState) (k m : ℕ) (j : Jumper)
    (hm : g.jumpers.get? m = some j) :
    ∃ j', (stepJumperAt now g k).jumpers.get? m = some j' ∧
      j.highest ≤ j'.highest ∧ (j.dead = true → j'.dead = true) := by
  unfold stepJumperAt
  split
  · exact ⟨j, hm, le_refl _, fun h => h⟩
  · rename_i j0 hk
    by_cases hkm : k = m
    · subst hkm
      rw [hk] at hm
      injection hm with hm
      subst hm
      refine ⟨(stepCore now g k j0).1, ?_, stepCore_highest now g k j0,
        fun hd => stepCore_dead now g k j0 hd⟩
      show (g.jumpers.set k (stepCore now g k j0).1).get? k = _
      exact get_set_self _ _ _ (get_some_lt _ _ _ hk)
    · refine ⟨j, ?_, le_refl _, fun h => h⟩
      show (g.jumpers.set k (stepCore now g k j0).1).get? m = some j
      rw [get_set_other _ _ _ _ hkm]
      exact hm

theorem stepJumperAt_nonneg (now : ℚ) (g : GameState) (k : ℕ)
    (h0 : ∀ jj ∈ g.jumpers, 0 ≤ jj.highest) :
    ∀ jj ∈ (stepJumperAt now g k).jumpers, 0 ≤ jj.highest := by
  unfold stepJumperAt
  split
  · exact h0
  · rename_i j hk
    intro jj hjj
    rcases mem_of_mem_set _ _ _ jj hjj with he | he
    · subst he
      exact le_trans (h0 j (List.get?_mem hk)) (stepCore_highest now g k j)
    · exact h0 jj he

theorem stepJumperAt_best (now : ℚ) (g : GameState) (k : ℕ)
    (h0 : ∀ jj ∈ g.jumpers, 0 ≤ jj.highest) (k' : String) (v : ℚ)
    (hv : alLookup g.best k' = some v) :
    ∃ v', alLookup (stepJumperAt now g k).best k' = some v' ∧ v ≤ v' := by
  unfold stepJumperAt
  split
  · exact ⟨v, hv, le_refl v⟩
  · rename_i j hk
    exact stepCore_best now g k j (h0 j (List.get?_mem hk)) k' v hv

theorem stepJumpersFrom_frame (now : ℚ) : ∀ (n : ℕ) (g : GameState) (k : ℕ),
    (stepJumpersFrom now g k n).startAt = g.startAt ∧
    (stepJumpersFrom now g k n).jumping = g.jumping ∧
    (stepJumpersFrom now g k n).gameRestartTime = g.gameRestartTime ∧
    (stepJumpersFrom now g k n).scores = g.scores := by
  intro n
  induction n with
  | zero => intro g k; exact ⟨rfl, rfl, rfl, rfl⟩
  | succ m ih =>
    intro g k
    have h1 := stepJumperAt_frame now g k
    have h2 := ih (stepJumperAt now g k) (k + 1)
    exact ⟨h2.1.trans h1.1, h2.2.1.trans h1.2.1, h2.2.2.1.trans h1.2.2.1,
      h2.2.2.2.trans h1.2.2.2⟩

theorem stepJumpersFrom_events (now : ℚ) : ∀ (n : ℕ) (g : GameState) (k : ℕ),
    ∃ t, (stepJumpersFrom now g k n).events = g.events ++ t ∧ noWin t := by
  intro n
  induction n with
  | zero => intro g k; exact ⟨[], by simp [stepJumpersFrom], by intro e he; simp at he⟩
  | succ m ih =>
    intro g k
    obtain ⟨t1, h1, hn1⟩ := stepJumperAt_events now g k
    obtain ⟨t2, h2, hn2⟩ := ih (stepJumperAt now g k) (k + 1)
    refine ⟨t1 ++ t2, ?_, noWin_append _ _ hn1 hn2⟩
    show (stepJumpersFrom now (stepJumperAt now g k) (k + 1) m).events = _
    rw [h2, h1, List.append_assoc]

theorem stepJumpersFrom_get (now : ℚ) : ∀ (n : ℕ) (g : GameState) (k m : ℕ) (j : Jumper),
    g.jumpers.get? m = some j →
    ∃ j', (stepJumpersFrom now g k n).jumpers.get? m = some j' ∧
      j.highest ≤ j'.highest ∧ (j.dead = true → j'.dead = true) := by
  intro n
  induction n with
  | zero => intro g k m j hm; exact ⟨j, hm, le_refl _, fun h => h⟩
  | succ mm ih =>
    intro g k m j hm
    obtain ⟨j1, h1, hle1, hd1⟩ := stepJumperAt_get now g k m j hm
    obtain ⟨j2, h2, hle2, hd2⟩ := ih (stepJumperAt now g k) (k + 1) m j1 h1
    exact ⟨j2, h2, le_trans hle1 hle2, fun h => hd2 (hd1 h)⟩

theorem stepJumpersFrom_best (now : ℚ) : ∀ (n : ℕ) (g : GameState) (k : ℕ),
    (∀ jj ∈ g.jumpers, 0 ≤ jj.highest) →
    ∀ k' v, alLookup g.best k' = some v →
      ∃ v', alLookup (stepJumpersFrom now g k n).best k' = some v' ∧ v ≤ v' := by
  intro n
  induction n with
  | zero => intro g k _ k' v hv; exact ⟨v, hv, le_refl v⟩
  | succ m ih =>
    intro g k h0 k' v hv
    obtain ⟨v1, h1, hle1⟩ := stepJumperAt_best now g k h0 k' v hv
    obtain ⟨v2, h2, hle2⟩ := ih (stepJumperAt now g k) (k + 1)
      (stepJumperAt_nonneg now g k h0) k' v1 h1
    exact ⟨v2, h2, le_trans hle1 hle2⟩

theorem physicsStep_frame (now : ℚ) (g : GameState) :
    (physicsStep now g).startAt = g.startAt ∧ (physicsStep now g).jumping = g.jumping ∧
    (physicsStep now g).gameRestartTime = g.gameRestartTime ∧
    (physicsStep now g).scores = g.scores := by
  unfold physicsStep
  dsimp only
  exact stepJumpersFrom_frame now _ _ _

theorem physicsStep_events (now : ℚ) (g : GameState) :
    ∃ t, (physicsStep now g).events = g.events ++ t ∧ noWin t := by
  unfold physicsStep
  dsimp only
  exact stepJumpersFrom_events now _ _ _

theorem physicsStep_get (now : ℚ) (g : GameState) (m : ℕ) (j : Jumper)
    (hm : g.jumpers.get? m = some j) :
    ∃ j', (physicsStep now g).jumpers.get? m = some j' ∧ j.highest ≤ j'.highest ∧
      (j.dead = true → j'.dead = true) := by
  unfold physicsStep
  dsimp only
  exact stepJumpersFrom_get now _ _ 0 m j hm

theorem physicsStep_best (now : ℚ) (g : GameState)
    (h0 : ∀ jj ∈ g.jumpers, 0 ≤ jj.highest) (k' : String) (v : ℚ)
    (hv : alLookup g.best k' = some v) :
    ∃ v', alLookup (physicsStep now g).best k' = some v' ∧ v ≤ v' := by
  unfold physicsStep
  dsimp only
  exact stepJumpersFrom_best now g.jumpers.length
    { g with platforms := fallStep g.platforms, enemies := g.enemies.map moveEnemy }
    0 h0 k' v hv

theorem lobbyStep_fields (now : ℚ) (ids : List String) (g : GameState) :
    (lobbyStep now ids g).jumpers = g.jumpers ∧ (lobbyStep now ids g).best = g.best ∧
    (lobbyStep now ids g).scores = g.scores ∧
    (lobbyStep now ids g).gameRestartTime = g.gameRestartTime := by
  unfold lobbyStep
  dsimp only
  by_cases h1 : g.jumpers.length = ids.length ∧ g.startAt = -1
  · rw [if_pos h1]
    split <;> exact ⟨rfl, rfl, rfl, rfl⟩
  · rw [if_neg h1]
    split <;> exact ⟨rfl, rfl, rfl, rfl⟩

theorem winCheck_cases (now : ℚ) (g g1 : GameState) (h : winCheck now g = some g1) :
    g1 = g ∨ (g.gameRestartTime = -1 ∧ ∃ w, winnerOf g.jumpers = some w ∧
      g1 = { g with gameRestartTime := now + 3000,
                    events := g.events ++ [⟨GameEventType.win, none⟩],
                    scores := bumpScore g.scores w.id }) := by
  unfold winCheck at h
  split at h
  · rename_i hcond
    cases hw : winnerOf g.jumpers with
    | none =>
      rw [hw] at h
      exact absurd h (by simp)
    | some w =>
      rw [hw] at h
      injection h with h
      exact Or.inr ⟨hcond.2.1, w, rfl, h.symm⟩
  · injection h with h
    exact Or.inl h.symm

theorem winCheck_fires (now : ℚ) (g : GameState) (w : Jumper) (hj : g.jumping = true)
    (hrt : g.gameRestartTime = -1) (hover : gameOver now g = true)
    (hwin : winnerOf g.jumpers = some w) :
    winCheck now g = some { g with gameRestartTime := now + 3000,
                                   events := g.events ++ [⟨GameEventType.win, none⟩],
                                   scores := bumpScore g.scores w.id } := by
  unfold winCheck
  rw [if_pos ⟨hj, hrt, hover⟩, hwin]

theorem update_shape (now : ℚ) (ids : List String) (r : Rand) (g : GameState) :
    ∀ g' ∈ update now ids r g,
      ∃ g1, winCheck now { g with events := [] } = some g1 ∧
        ((g1.gameRestartTime ≠ -1 ∧ now > g1.gameRestartTime ∧ g' = (startGame g1 r).1) ∨
         (¬(g1.gameRestartTime ≠ -1 ∧ now > g1.gameRestartTime) ∧ g1.jumping = false ∧
            g' = lobbyStep now ids g1) ∨
         (¬(g1.gameRestartTime ≠ -1 ∧ now > g1.gameRestartTime) ∧ g1.jumping = true ∧
            g' = physicsStep now g1)) := by
  intro g' hg'
  rw [Option.mem_def] at hg'
  unfold update at hg'
  dsimp only at hg'
  split at hg'
  · exact absurd hg' (by simp)
  · rename_i g1 hwc
    refine ⟨g1, hwc, ?_⟩
    split at hg'
    · rename_i hrt
      injection hg' with hg'
      exact Or.inl ⟨hrt.1, hrt.2, hg'.symm⟩
    · rename_i hrt
      split at hg'
      · rename_i hj
        injection hg' with hg'
        exact Or.inr (Or.inl ⟨hrt, hj, hg'.symm⟩)
      · rename_i hj
        injection hg' with hg'
        exact Or.inr (Or.inr ⟨hrt, by simpa using hj, hg'.symm⟩)

/-! Claim theorems about the tick function and actions -/

/-- A mid-round state in which every player has disconnected: the round is
    active, startAt is set, no restart is pending, and jumpers is empty. -/
def c3State : GameState := ⟨[], [], [], 0, true, -1, 0, [], [], []⟩

/-- Claim C3: the tick update is claimed total, but on the reachable state
    where all players disconnected mid-round (jumpers empty, round active,
    startAt set, no restart pending) the game-over branch fires and the
    winner lookup dereferences the head of an empty sorted list: the
    JavaScript throws, modelled here as update returning none. -/
theorem c3_crash_on_empty_jumpers : update 0 [] rand0 c3State = none := by
  norm_num [update, winCheck, gameOver, gameOverL, winnerOf, c3State, roundTime]

/-- Claim C6: a live jumper that lands on a spiked platform during a sub-step
    (descending, platform present at its row, not falling, x within range)
    ends the sub-step loop dead, with exactly one DIE event carrying its id
    appended (no BOUNCE or SPRING), its y snapped to the platform's y, and its
    vy still assigned the jump power — spring-boosted when spring is set. -/
theorem c6_spike_landing (now startAt : ℚ) (view : List Jumper)
    (plats : List (Option Platform)) (evs : List GameEvent) (j : Jumper) (n : ℕ)
    (p : Platform)
    (hdead : j.dead = false) (hover : gameOverL now startAt view = false)
    (hvy : j.vy < 0)
    (hp : platLookup plats (rowOf (j.y + j.vy / 10)) = some p)
    (hfall : p.falling = false)
    (hx1 : p.x - playerHalfWidth < j.x)
    (hx2 : j.x < p.x + p.width + playerHalfWidth)
    (hsp : p.spikes = true) :
    substeps now startAt view plats evs j (n + 1) =
      ({ j with y := p.y,
                vy := if p.spring = true then defaultJumpPower * (3/2) else defaultJumpPower,
                dead := true },
       if p.faller = true then markFalling plats (rowOf (j.y + j.vy / 10)).toNat else plats,
       evs ++ [⟨GameEventType.die, some j.id⟩]) := by
  simp only [substeps]
  simp [hdead, hover, hvy, hp, hfall, hx1, hx2, hsp]

def c6Jumper : Jumper := ⟨"a", 1/2, 13/50, 1, 0, -(3/100), false, false, false⟩
def c6Platform : Platform := ⟨9/20, 1/4, 1/6, true, false, false, 0, false⟩
def c6Plats : List (Option Platform) := [none, none, none, none, none, some c6Platform]

theorem c6_spike_landing_witness :
    substeps 0 (-1) [] c6Plats [] c6Jumper (0 + 1) =
      ({ c6Jumper with
          y := c6Platform.y,
          vy := if c6Platform.spring = true then defaultJumpPower * (3/2) else defaultJumpPower,
          dead := true },
       if c6Platform.faller = true then
         markFalling c6Plats (rowOf (c6Jumper.y + c6Jumper.vy / 10)).toNat
       else c6Plats,
       [] ++ [⟨GameEventType.die, some c6Jumper.id⟩]) :=
  c6_spike_landing 0 (-1) [] c6Plats [] c6Jumper 0 c6Platform rfl
    (by norm_num [gameOverL]) (by norm_num [c6Jumper])
    (by
      norm_num [platLookup, platAt, rowOf, c6Plats, c6Jumper, rowHeight]
      rfl)
    rfl (by norm_num [c6Platform, c6Jumper, playerHalfWidth])
    (by norm_num [c6Platform, c6Jumper, playerHalfWidth]) rfl

/-- Claim C7 (amended): held-control movement applies each direction only when
    the pre-move x is strictly inside the corresponding threshold: holding
    right adds moveSpeed only when x < 1 - playerHalfWidth (so the result stays
    below 1 - playerHalfWidth + moveSpeed, not below the threshold itself), and
    holding left subtracts moveSpeed only when x > playerHalfWidth; with both
    flags held and x strictly inside both thresholds the net movement is zero. -/
theorem c7_move_caps (j : Jumper) :
    (j.right = true → j.left = false → j.x < 1 - playerHalfWidth →
      (applyMove j).x = j.x + moveSpeed ∧ (applyMove j).x < 1 - playerHalfWidth + moveSpeed) ∧
    (j.right = true → j.left = false → ¬j.x < 1 - playerHalfWidth → (applyMove j).x = j.x) ∧
    (j.left = true → j.right = false → playerHalfWidth < j.x →
      (applyMove j).x = j.x - moveSpeed ∧ playerHalfWidth - moveSpeed < (applyMove j).x) ∧
    (j.left = true → j.right = false → ¬playerHalfWidth < j.x → (applyMove j).x = j.x) ∧
    (j.right = true → j.left = true → playerHalfWidth < j.x → j.x < 1 - playerHalfWidth →
      (applyMove j).x = j.x) := by
  have hms : (0:ℚ) < moveSpeed := by norm_num [moveSpeed]
  refine ⟨?_, ?_, ?_, ?_, ?_⟩
  · intro hr hl hx
    have hx' : (applyMove j).x = j.x + moveSpeed := by simp [applyMove, hr, hl, hx]
    refine ⟨hx', ?_⟩
    rw [hx']
    linarith
  · intro hr hl hx
    simp [applyMove, hr, hl, hx]
  · intro hl hr hx
    have hx' : (applyMove j).x = j.x - moveSpeed := by simp [applyMove, hr, hl, hx]
    refine ⟨hx', ?_⟩
    rw [hx']
    linarith
  · intro hl hr hx
    simp [applyMove, hr, hl, hx]
  · intro hr hl hx1 hx2
    have h2 : playerHalfWidth < j.x + moveSpeed := by linarith
    simp [applyMove, hr, hl, hx1, hx2, h2]

def c7wJumper : Jumper := ⟨"b", 1/2, 0, 0, 0, 0, false, true, false⟩

theorem c7_move_caps_witness :
    (applyMove c7wJumper).x = c7wJumper.x + moveSpeed ∧
    (applyMove c7wJumper).x < 1 - playerHalfWidth + moveSpeed :=
  (c7_move_caps c7wJumper).1 rfl rfl (by norm_num [c7wJumper, playerHalfWidth])

def c7Jumper : Jumper := ⟨"a", 24/25, 1, 1, 0, 3/2000, false, true, false⟩
def c7State : GameState := ⟨[c7Jumper], [], [], 0, true, -1, 0, [], [], []⟩

/-- Claim C7 counterexample: a live jumper at x = 24/25 (below the threshold
    1 - playerHalfWidth = 97/100) holding right ends the tick at x = 49/50,
    which exceeds 1 - playerHalfWidth — the movement result is not capped at
    the threshold, refuting the claimed bound. -/
theorem c7_counterexample :
    (update 0 ["a"] rand0 c7State).bind (fun g => (g.jumpers.get? 0).map Jumper.x)
      = some (49/50) ∧ ¬((49:ℚ)/50 ≤ 1 - playerHalfWidth) := by
  constructor
  · norm_num [update, winCheck, gameOver, gameOverL, winnerOf, roundTime, physicsStep,
      fallStep, stepJumpersFrom, stepJumperAt, stepCore, substeps, postSub, applyMove,
      bestUpdate, alLookup, alSet, platLookup, platAt, rowOf, moveEnemy, c7State, c7Jumper,
      gravity, playerHalfWidth, moveSpeed, rowHeight, defaultJumpPower, List.set]
  · norm_num [playerHalfWidth]

/-- Claim C10: the join action unconditionally appends a fresh jumper with
    y = highest = rowHeight, vy = defaultJumpPower and dead = false for the
    calling player — no guard on jumping and no duplicate-id check, so a
    second entry with the same id or a mid-round join goes straight in. -/
theorem c10_join_appends (g : GameState) (ids : List String) (pid : String) (ty : ℤ) :
    ∃ x, join g ids pid ty = { g with jumpers := g.jumpers ++
      [⟨pid, x, rowHeight, rowHeight, ty, defaultJumpPower, false, false, false⟩] } :=
  ⟨_, rfl⟩

/-! Round-over claim (C2) -/

/-- The jumper w at index k holds the strictly greatest highest before index k
    and at least ties everywhere: the claim's winner (earliest maximal). -/
def isFirstMax (l : List Jumper) (k : ℕ) (w : Jumper) : Prop :=
  l.get? k = some w ∧ (∀ j ∈ l, j.highest ≤ w.highest) ∧
    ∀ m, m < k → ∀ j, l.get? m = some j → j.highest < w.highest

def scoreOf (s : List (String × ℚ)) (k : String) : ℚ := (alLookup s k).getD 0

theorem winnerOf_mem : ∀ (l : List Jumper) (w : Jumper), winnerOf l = some w → w ∈ l := by
  intro l
  induction l with
  | nil => intro w h; exact absurd h (by simp [winnerOf])
  | cons j rest ih =>
    intro w h
    unfold winnerOf at h
    cases hr : winnerOf rest with
    | none =>
      rw [hr] at h
      injection h with h
      subst h
      exact List.mem_cons_self _ _
    | some w0 =>
      rw [hr] at h
      injection h with h
      by_cases hgt : w0.highest > j.highest
      · rw [if_pos hgt] at h
        subst h
        exact List.mem_cons_of_mem _ (ih w0 hr)
      · rw [if_neg hgt] at h
        subst h
        exact List.mem_cons_self _ _

theorem winnerOf_firstMax : ∀ (l : List Jumper) (k : ℕ) (w : Jumper),
    isFirstMax l k w → winnerOf l = some w := by
  intro l
  induction l with
  | nil =>
    intro k w h
    exact absurd h.1 (by simp)
  | cons j rest ih =>
    intro k w h
    obtain ⟨hget, hmax, hlt⟩ := h
    cases k with
    | zero =>
      have hw : j = w := by
        have h2 : some j = some w := by simpa using hget
        injection h2
      subst hw
      unfold winnerOf
      cases hr : winnerOf rest with
      | none => rfl
      | some w0 =>
        have hle : w0.highest ≤ j.highest :=
          hmax w0 (List.mem_cons_of_mem _ (winnerOf_mem rest w0 hr))
        show some (if w0.highest > j.highest then w0 else j) = some j
        rw [if_neg (not_lt.mpr hle)]
    | succ m =>
      have hj : j.highest < w.highest := hlt 0 (Nat.succ_pos m) j rfl
      have ihm : winnerOf rest = some w := by
        apply ih m w
        refine ⟨by simpa using hget, fun x hx => hmax x (List.mem_cons_of_mem _ hx), ?_⟩
        intro m' hm' x hx
        exact hlt (m' + 1) (by omega) x (by simpa using hx)
      unfold winnerOf
      rw [ihm]
      show some (if w.highest > j.highest then w else j) = some w
      rw [if_pos hj]

theorem bumpScore_self (s : List (String × ℚ)) (k : String) :
    scoreOf (bumpScore s k) k = scoreOf s k + 1 := by
  unfold bumpScore scoreOf
  rw [alLookup_alSet_self]
  rfl

theorem bumpScore_other (s : List (String × ℚ)) (k k' : String) (hk : k' ≠ k) :
    alLookup (bumpScore s k) k' = alLookup s k' := by
  unfold bumpScore
  exact alLookup_alSet_other _ _ _ _ hk

theorem update_run_physics (now : ℚ) (ids : List String) (r : Rand) (g g1 : GameState)
    (hwc : winCheck now { g with events := [] } = some g1)
    (hnr : ¬(g1.gameRestartTime ≠ -1 ∧ now > g1.gameRestartTime))
    (hjt : g1.jumping = true) :
    update now ids r g = some (physicsStep now g1) := by
  unfold update
  dsimp only
  split
  · rename_i heq
    rw [hwc] at heq
    exact absurd heq (by simp)
  · rename_i g2 heq
    rw [hwc] at heq
    injection heq with heq
    subst heq
    rw [if_neg hnr, if_neg (by simp [hjt])]

/-- Claim C2: on a tick where the round is active, no restart is pending and
    the game-over predicate holds, the update emits exactly one WIN event,
    sets gameRestartTime to now + 3000 and increments by exactly one the score
    of the earliest jumper holding the maximal highest (strictly greatest,
    ties broken by list position), leaving every other score untouched. -/
theorem c2_round_over (now : ℚ) (ids : List String) (r : Rand) (g : GameState)
    (hj : g.jumping = true) (hrt : g.gameRestartTime = -1)
    (hover : gameOverL now g.startAt g.jumpers = true)
    (k : ℕ) (w : Jumper) (hw : isFirstMax g.jumpers k w) :
    ∃ g', update now ids r g = some g' ∧
      winCount g'.events = 1 ∧
      g'.gameRestartTime = now + 3000 ∧
      scoreOf g'.scores w.id = scoreOf g.scores w.id + 1 ∧
      ∀ pid, pid ≠ w.id → alLookup g'.scores pid = alLookup g.scores pid := by
  have hwin : winnerOf g.jumpers = some w := winnerOf_firstMax g.jumpers k w hw
  have hwc := winCheck_fires now { g with events := [] } w hj hrt hover hwin
  have hne : ¬(now > now + 3000) := by linarith
  have hupd := update_run_physics now ids r g _ hwc (fun hc => hne hc.2) hj
  refine ⟨_, hupd, ?_, ?_, ?_, ?_⟩
  · obtain ⟨t, hev, hnw⟩ := physicsStep_events now _
    rw [hev, winCount_append_noWin _ _ hnw]
    simp [winCount]
  · exact ((physicsStep_frame now _).2.2.1).trans rfl
  · rw [(physicsStep_frame now _).2.2.2]
    show scoreOf (bumpScore g.scores w.id) w.id = scoreOf g.scores w.id + 1
    exact bumpScore_self g.scores w.id
  · intro pid hpid
    rw [(physicsStep_frame now _).2.2.2]
    show alLookup (bumpScore g.scores w.id) pid = alLookup g.scores pid
    exact bumpScore_other g.scores w.id pid hpid

def c2Jumper : Jumper := ⟨"a", 1/2, 1/4, 1/4, 0, 0, false, false, true⟩
def c2State : GameState := ⟨[c2Jumper], [], [], 0, true, -1, 0, [], [], []⟩

theorem c2_round_over_witness :
    ∃ g', update 0 [] rand0 c2State = some g' ∧
      winCount g'.events = 1 ∧
      g'.gameRestartTime = 0 + 3000 ∧
      scoreOf g'.scores c2Jumper.id = scoreOf c2State.scores c2Jumper.id + 1 ∧
      ∀ pid, pid ≠ c2Jumper.id → alLookup g'.scores pid = alLookup c2State.scores pid :=
  c2_round_over 0 [] rand0 c2State rfl rfl
    (by norm_num [c2State, c2Jumper, gameOverL, roundTime]) 0 c2Jumper
    ⟨rfl, by simp [c2State], fun m hm => absurd hm (Nat.not_lt_zero m)⟩

/-! Monotonicity claim (C8) -/

/-- Claim C8: over one tick, every stored best value never decreases (in every
    branch of update, including a round restart, since startGame leaves best
    and scores untouched), and outside the restart branch every jumper's
    highest is non-decreasing, given highest values start non-negative. -/
theorem c8_monotonic (now : ℚ) (ids : List String) (r : Rand) (g : GameState)
    (h0 : ∀ j ∈ g.jumpers, 0 ≤ j.highest) :
    (∀ g' ∈ update now ids r g,
      (∀ pid v, alLookup g.best pid = some v →
        ∃ v', alLookup g'.best pid = some v' ∧ v ≤ v') ∧
      (¬(g.gameRestartTime ≠ -1 ∧ now > g.gameRestartTime) →
        ∀ k j, g.jumpers.get? k = some j →
          ∃ j', g'.jumpers.get? k = some j' ∧ j.highest ≤ j'.highest)) ∧
    (startGame g r).1.best = g.best ∧ (startGame g r).1.scores = g.scores := by
  refine ⟨?_, rfl, rfl⟩
  intro g' hg'
  obtain ⟨g1, hwc, hbr⟩ := update_shape now ids r g g' hg'
  have hc := winCheck_cases now _ g1 hwc
  have hbest : g1.best = g.best := by
    rcases hc with h | ⟨_, w, _, h⟩ <;> (subst h; rfl)
  have hjumpers : g1.jumpers = g.jumpers := by
    rcases hc with h | ⟨_, w, _, h⟩ <;> (subst h; rfl)
  have hgrt : g1.gameRestartTime = g.gameRestartTime ∨
      (g.gameRestartTime = -1 ∧ g1.gameRestartTime = now + 3000) := by
    rcases hc with h | ⟨hm1, w, _, h⟩
    · subst h
      exact Or.inl rfl
    · subst h
      exact Or.inr ⟨hm1, rfl⟩
  rcases hbr with ⟨hne, hgt, hg'⟩ | ⟨hnr, hjf, hg'⟩ | ⟨hnr, hjt, hg'⟩
  · subst hg'
    refine ⟨?_, ?_⟩
    · intro pid v hv
      refine ⟨v, ?_, le_refl v⟩
      show alLookup g1.best pid = some v
      rw [hbest]
      exact hv
    · intro hnp k j hk
      exfalso
      rcases hgrt with he | ⟨h1, h2⟩
      · exact hnp ⟨by rw [← he]; exact hne, by rw [← he]; exact hgt⟩
      · rw [h2] at hgt
        linarith
  · subst hg'
    have hl := lobbyStep_fields now ids g1
    refine ⟨?_, ?_⟩
    · intro pid v hv
      refine ⟨v, ?_, le_refl v⟩
      rw [hl.2.1, hbest]
      exact hv
    · intro _ k j hk
      refine ⟨j, ?_, le_refl _⟩
      rw [hl.1, hjumpers]
      exact hk
  · subst hg'
    have h0' : ∀ jj ∈ g1.jumpers, 0 ≤ jj.highest := by
      rw [hjumpers]
      exact h0
    refine ⟨?_, ?_⟩
    · intro pid v hv
      exact physicsStep_best now g1 h0' pid v (by rw [hbest]; exact hv)
    · intro _ k j hk
      obtain ⟨j', hj', hle, _⟩ := physicsStep_get now g1 k j (by rw [hjumpers]; exact hk)
      exact ⟨j', hj', hle⟩

def c8State : GameState := ⟨[], [], [], -1, false, -1, 0, [], [], [("a", 1)]⟩

theorem c8_monotonic_witness :
    (∀ g' ∈ update 0 [] rand0 c8State,
      (∀ pid v, alLookup c8State.best pid = some v →
        ∃ v', alLookup g'.best pid = some v' ∧ v ≤ v') ∧
      (¬(c8State.gameRestartTime ≠ -1 ∧ (0:ℚ) > c8State.gameRestartTime) →
        ∀ k j, c8State.jumpers.get? k = some j →
          ∃ j', g'.jumpers.get? k = some j' ∧ j.highest ≤ j'.highest)) ∧
    (startGame c8State rand0).1.best = c8State.best ∧
    (startGame c8State rand0).1.scores = c8State.scores :=
  c8_monotonic 0 [] rand0 c8State (by simp [c8State])

/-! Death-is-terminal claim (C9) -/

theorem setControls_get : ∀ (l : List Jumper) (pid : String) (c : Controls) (k : ℕ)
    (j : Jumper), l.get? k = some j →
    ∃ j', (setControls l pid c).get? k = some j' ∧ j'.dead = j.dead := by
  intro l
  induction l with
  | nil => intro pid c k j h; exact absurd h (by simp)
  | cons a rest ih =>
    intro pid c k j h
    unfold setControls
    by_cases ha : a.id = pid
    · rw [if_pos ha]
      cases k with
      | zero =>
        have he : a = j := by
          have h2 : some a = some j := by simpa using h
          injection h2
        subst he
        exact ⟨{ a with right := c.right, left := c.left }, rfl, rfl⟩
      | succ m => exact ⟨j, by simpa using h, rfl⟩
    · rw [if_neg ha]
      cases k with
      | zero =>
        have he : a = j := by
          have h2 : some a = some j := by simpa using h
          injection h2
        subst he
        exact ⟨a, rfl, rfl⟩
      | succ m =>
        obtain ⟨j', hj', hd⟩ := ih pid c m j (by simpa using h)
        exact ⟨j', by simpa using hj', hd⟩

/-- Claim C9: death is terminal within a round — a jumper that is dead stays
    dead through any non-restart tick, through the controls action, and the
    join action leaves existing entries untouched (only startGame discards
    jumpers at the round reset). -/
theorem c9_death_terminal (now : ℚ) (ids : List String) (r : Rand) (g : GameState)
    (pid : String) (c : Controls) (ty : ℤ) :
    (∀ g' ∈ update now ids r g,
      ¬(g.gameRestartTime ≠ -1 ∧ now > g.gameRestartTime) →
      ∀ k j, g.jumpers.get? k = some j → j.dead = true →
        ∃ j', g'.jumpers.get? k = some j' ∧ j'.dead = true) ∧
    (∀ k j, g.jumpers.get? k = some j → j.dead = true →
      ∃ j', (controls g pid c).jumpers.get? k = some j' ∧ j'.dead = true) ∧
    (∀ k j, g.jumpers.get? k = some j → (join g ids pid ty).jumpers.get? k = some j) := by
  refine ⟨?_, ?_, ?_⟩
  · intro g' hg' hnp k j hk hd
    obtain ⟨g1, hwc, hbr⟩ := update_shape now ids r g g' hg'
    have hc := winCheck_cases now _ g1 hwc
    have hjumpers : g1.jumpers = g.jumpers := by
      rcases hc with h | ⟨_, w, _, h⟩ <;> (subst h; rfl)
    have hgrt : g1.gameRestartTime = g.gameRestartTime ∨
        (g.gameRestartTime = -1 ∧ g1.gameRestartTime = now + 3000) := by
      rcases hc with h | ⟨hm1, w, _, h⟩
      · subst h
        exact Or.inl rfl
      · subst h
        exact Or.inr ⟨hm1, rfl⟩
    rcases hbr with ⟨hne, hgt, hg'⟩ | ⟨hnr, hjf, hg'⟩ | ⟨hnr, hjt, hg'⟩
    · exfalso
      rcases hgrt with he | ⟨h1, h2⟩
      · exact hnp ⟨by rw [← he]; exact hne, by rw [← he]; exact hgt⟩
      · rw [h2] at hgt
        linarith
    · subst hg'
      refine ⟨j, ?_, hd⟩
      rw [(lobbyStep_fields now ids g1).1, hjumpers]
      exact hk
    · subst hg'
      obtain ⟨j', hj', _, hdj⟩ := physicsStep_get now g1 k j (by rw [hjumpers]; exact hk)
      exact ⟨j', hj', hdj hd⟩
  · intro k j hk hd
    obtain ⟨j', hj', hde⟩ := setControls_get g.jumpers pid c k j hk
    refine ⟨j', hj', ?_⟩
    rw [hde]
    exact hd
  · intro k j hk
    show (g.jumpers ++ [_]).get? k = some j
    rw [List.get?_append (get_some_lt _ _ _ hk)]
    exact hk

def c9Jumper : Jumper := ⟨"a", 1/2, 1/4, 1/4, 0, 0, false, false, true⟩
def c9State : GameState := ⟨[c9Jumper], [], [], 0, true, -1, 0, [], [], []⟩

theorem c9_death_terminal_witness :
    ∃ j', (controls c9State "a" ⟨true, false⟩).jumpers.get? 0 = some j' ∧ j'.dead = true :=
  (c9_death_terminal 0 ["a"] rand0 c9State "a" ⟨true, false⟩ 0).2.1 0 c9Jumper rfl rfl

end BoingBoing
